import Mathlib

/-!
Verification of the knowledge-base store (`ouroboros/tools/knowledge.py`).

The Python module is shallowly embedded below.  Strings are Lean `String`s
(lists of unicode code points, as in Python 3).  The filesystem visible to
the store is the flat base directory `memory/knowledge`: it is modelled as
`FS`, a flag for the directory's existence plus an association list from
file names (within the directory) to their text content.  I/O failures are
injected through an `Oracle`; a raised Python exception is an
`Except.error` carrying its message.  Path canonicalization (`Path.resolve`,
which consults the host filesystem's symbolic links) is modelled as an
arbitrary function `Ctx.resolve` from the candidate file name to the
canonical absolute path string of `base_dir / name`.
-/

namespace Ouroboros

/-! ### Python string primitives -/

/-- Characters for which Python's `str.isspace` is true (the set stripped
by `str.strip()`). -/
def pyIsSpace (c : Char) : Bool :=
  c == ' ' || c == '\t' || c == '\n' || c == '\r' || c == '\x0b' || c == '\x0c' ||
  c == '\x1c' || c == '\x1d' || c == '\x1e' || c == '\x1f' || c == '\x85' || c == '\xa0' ||
  c == '\u1680' || ('\u2000' ≤ c && c ≤ '\u200a') || c == '\u2028' || c == '\u2029' ||
  c == '\u202f' || c == '\u205f' || c == '\u3000'

def pyStripList (l : List Char) : List Char :=
  ((l.dropWhile pyIsSpace).reverse.dropWhile pyIsSpace).reverse

/-- Python `str.strip()`. -/
def pyStrip (s : String) : String := ⟨pyStripList s.data⟩

/-- Membership in the regex class `[a-zA-Z0-9]`. -/
def isAsciiAlnum (c : Char) : Bool :=
  ('a' ≤ c && c ≤ 'z') || ('A' ≤ c && c ≤ 'Z') || ('0' ≤ c && c ≤ '9')

/-- Membership in the regex class `[a-zA-Z0-9_.-]`. -/
def isTopicChar (c : Char) : Bool :=
  isAsciiAlnum c || c == '_' || c == '.' || c == '-'

/-- Whether `".."` occurs as a substring (Python `'..' in topic`). -/
def containsDotDot : List Char → Bool
  | [] => false
  | [_] => false
  | a :: b :: rest => (a == '.' && b == '.') || containsDotDot (b :: rest)

/-- Python `str.lower()` restricted to ASCII.  The sanitizer only compares
the lowered string against ASCII reserved words, and only after the
character-class regex has confirmed every character is ASCII, so the
ASCII mapping is the only reachable behaviour. -/
def pyLowerChar (c : Char) : Char :=
  if 'A' ≤ c && c ≤ 'Z' then Char.ofNat (c.toNat + 32) else c

def pyLower (s : String) : String := ⟨s.data.map pyLowerChar⟩

/-- Python `str.endswith` (structural, on the code-point list). -/
def pyEndsWith (s suffix : String) : Bool := suffix.data.isSuffixOf s.data

/-- Python `str.startswith` (structural, on the code-point list). -/
def pyStartsWith (s pre : String) : Bool := pre.data.isPrefixOf s.data

/-- Python slicing `s[:n]`. -/
def pyTake (s : String) (n : Nat) : String := ⟨s.data.take n⟩

def splitLinesAux : List Char → List Char → List String
  | [], acc => [⟨acc.reverse⟩]
  | c :: rest, acc =>
    if c == '\n' then ⟨acc.reverse⟩ :: splitLinesAux rest []
    else splitLinesAux rest (c :: acc)

/-- Python `text.split("\n")`. -/
def splitLines (s : String) : List String := splitLinesAux s.data []

/-- Python `sep.join(parts)`. -/
def joinWith (sep : String) : List String → String
  | [] => ""
  | [x] => x
  | x :: xs => x ++ sep ++ joinWith sep xs

/-! ### Sanitizer (`_sanitize_topic`) -/

/-- The regex `_VALID_TOPIC`:
`^[a-zA-Z0-9][a-zA-Z0-9_.-]{0,98}[a-zA-Z0-9]$|^[a-zA-Z0-9]$`,
i.e. a single alphanumeric character, or 2–100 characters whose first and
last are alphanumeric and whose middle is in `[a-zA-Z0-9_.-]`. -/
def validTopicMatch : List Char → Bool
  | [] => false
  | [c] => isAsciiAlnum c
  | c :: rest =>
    isAsciiAlnum c && rest.length + 1 ≤ 100 &&
      rest.dropLast.all isTopicChar && isAsciiAlnum ((rest.getLast?).getD ' ')

def RESERVED : List String := ["_index", "con", "prn", "aux", "nul"]

/-- Model of `_sanitize_topic`: validate and normalize a topic name.  A raised
`ValueError` is `Except.error` with the message. -/
def sanitizeTopic (topic : String) : Except String String :=
  if topic == "" then .error "Topic must be a non-empty string"
  else
    let t := pyStrip topic
    if t.data.contains '/' || t.data.contains '\\' || containsDotDot t.data then
      .error ("Invalid characters in topic: " ++ t)
    else if !validTopicMatch t.data then
      .error ("Invalid topic name: " ++ t ++ ". Use alphanumeric, underscore, hyphen, dot.")
    else if RESERVED.contains (pyLower t) then
      .error ("Reserved topic name: " ++ t)
    else .ok t

/-! ### Path resolver (`_safe_path`) -/

/-- The ambient context: the canonical form `kdir.resolve()` of the base
directory, and the canonicalization `(kdir / name).resolve()` of a
candidate file, both as absolute path strings.  `resolve` abstracts the
host filesystem's symbolic links and relative segments. -/
structure Ctx where
  kdirResolved : String
  resolve : String → String

/-- The containment test of `_safe_path`:
`str(resolved).startswith(str(kdir_resolved) + "/") or resolved == kdir_resolved`. -/
def containmentOk (resolved kdirR : String) : Bool :=
  (kdirR ++ "/").data.isPrefixOf resolved.data || resolved == kdirR

/-- Model of `_safe_path`: sanitize the topic, build `kdir / (topic + ".md")`,
and verify the canonical form is contained in the base directory.
Returns the file name within the base directory. -/
def safePath (ctx : Ctx) (topic : String) : Except String String :=
  match sanitizeTopic topic with
  | .error e => .error e
  | .ok t =>
    let name := t ++ ".md"
    if containmentOk (ctx.resolve name) ctx.kdirResolved then .ok name
    else .error ("Path escape detected: " ++ t)

/-- The resolution of a directory holding no symbolic links: the canonical
path of `kdir / name` is the canonical path of `kdir` followed by `/` and
the file name. -/
def plainResolve (kdirR : String) : String → String := fun name => kdirR ++ "/" ++ name

/-- Canonical-path containment as the spec states it: equal to the base,
or a descendant of it. -/
def isDescendantOf (d b : String) : Prop := ∃ rest, d = b ++ "/" ++ rest

/-! ### Filesystem model -/

/-- The base directory: whether it exists, and its files (name ↦ content). -/
structure FS where
  dirExists : Bool
  files : List (String × String)

def FS.lookup (fs : FS) (name : String) : Option String :=
  (fs.files.find? (fun p => p.1 == name)).map (fun p => p.2)

/-- Model of `path.exists()` for a file directly in the base directory. -/
def FS.fileExists (fs : FS) (name : String) : Bool :=
  fs.dirExists && (fs.lookup name).isSome

/-- Model of `path.write_text(content)` (given the write itself succeeds):
replace or create the file. -/
def FS.write (fs : FS) (name content : String) : FS :=
  { fs with files := fs.files.filter (fun p => p.1 != name) ++ [(name, content)] }

/-- I/O failure injection: which reads and which writes raise `IOError`. -/
structure Oracle where
  readFails : String → Bool
  writeFails : String → Bool

/-- The oracle of a healthy filesystem. -/
def noFail : Oracle := ⟨fun _ => false, fun _ => false⟩

/-- Model of `path.read_text(encoding="utf-8")`. -/
def readText (o : Oracle) (name : String) (fs : FS) : Except String String :=
  if o.readFails name then .error "IOError"
  else match fs.lookup name with
    | some c => .ok c
    | none => .error "FileNotFoundError"

/-- Model of `path.write_text(content, encoding="utf-8")`. -/
def writeText (o : Oracle) (name content : String) (fs : FS) : Except String FS :=
  if o.writeFails name then .error "IOError" else .ok (fs.write name content)

/-- Model of `_ensure_dir`, i.e. `mkdir(parents=True, exist_ok=True)`. -/
def ensureDir (fs : FS) : FS := { fs with dirExists := true }

/-! ### Index builder (`_update_index`) -/

def INDEX_FILE : String := "_index.md"

/-- Model of `f.stem` for a name matched by `glob("*.md")`: drop the `.md` suffix. -/
def stem (name : String) : String := ⟨name.data.take (name.data.length - 3)⟩

/-- Membership in `glob("*.md")`: ends with `.md` and is not a dotfile
(glob's `*` does not match a leading dot). -/
def isMdName (name : String) : Bool := pyEndsWith name ".md" && !pyStartsWith name "."

/-- Python string `<=` (lexicographic on code points), deciding the order
`sorted` uses on the globbed paths of one directory. -/
def charListLe : List Char → List Char → Bool
  | [], _ => true
  | _ :: _, [] => false
  | a :: as, b :: bs =>
    if a.toNat < b.toNat then true
    else if b.toNat < a.toNat then false
    else charListLe as bs

def strLeB (a b : String) : Bool := charListLe a.data b.data

/-- Insertion of one name into a sorted list of names. -/
def insertSorted (a : String) : List String → List String
  | [] => [a]
  | b :: bs => if strLeB a b then a :: b :: bs else b :: insertSorted a bs

/-- Model of `sorted(...)` on file names. -/
def sortStrings : List String → List String
  | [] => []
  | a :: as => insertSorted a (sortStrings as)

/-- The names `glob("*.md")` yields (unsorted). -/
def mdNames (fs : FS) : List String := (fs.files.map (fun p => p.1)).filter isMdName

/-- Model of `line.strip().lstrip("#").strip()`. -/
def cleanLine (line : String) : String := pyStrip ⟨(pyStrip line).data.dropWhile (fun c => c == '#')⟩

/-- The summary loop of `_update_index`: first line whose cleaned form is
non-empty, truncated to 120 characters (`line[:120]`); `""` if none. -/
def firstSummaryLine : List String → String
  | [] => ""
  | line :: rest =>
    let l := cleanLine line
    if l == "" then firstSummaryLine rest else pyTake l 120

/-- Summary of one entry's text: `text = f.read_text().strip()` then the
first-non-empty-line loop. -/
def entrySummary (text : String) : String :=
  firstSummaryLine (splitLines (pyStrip text))

/-- One index line: the `try` body on success, the `except` arm on a read
failure. -/
def indexLine (o : Oracle) (fs : FS) (name : String) : String :=
  match readText o name fs with
  | .ok text => "- **" ++ stem name ++ "**: " ++ entrySummary text
  | .error _ => "- **" ++ stem name ++ "**: (unreadable)"

/-- The loop of `_update_index`: sorted `*.md` files, the index file
itself skipped, each mapped to its line. -/
def indexEntries (o : Oracle) (fs : FS) : List String :=
  ((sortStrings (mdNames fs)).filter (fun n => n != INDEX_FILE)).map (indexLine o fs)

/-- The full text `_update_index` writes. -/
def indexContent (o : Oracle) (fs : FS) : String :=
  let entries := indexEntries o fs
  "# Knowledge Base Index\n\n" ++
    (if entries.isEmpty then "(empty)\n" else joinWith "\n" entries ++ "\n")

/-- Model of `_update_index`: no-op when the directory does not exist, else rewrite
the index file.  A failing index write raises. -/
def updateIndex (o : Oracle) (fs : FS) : Except String FS :=
  if !fs.dirExists then .ok fs
  else writeText o INDEX_FILE (indexContent o fs) fs

/-! ### Store handlers -/

def invalidTopicMsg (e : String) : String := "⚠️ Invalid topic: " ++ e

def notFoundMsg (topic : String) : String :=
  "Topic '" ++ topic ++ "' not found. Use knowledge_list to see available topics."

def invalidModeMsg (mode : String) : String :=
  "⚠️ Invalid mode '" ++ mode ++ "'. Use 'overwrite' or 'append'."

def savedMsg (topic mode : String) : String :=
  "✅ Knowledge '" ++ topic ++ "' saved (" ++ mode ++ ")."

def emptyStoreMsg : String := "Knowledge base is empty. Use knowledge_write to add topics."

/-- Model of `_knowledge_read`. -/
def knowledgeRead (ctx : Ctx) (o : Oracle) (topic : String) (fs : FS) :
    Except String String × FS :=
  match safePath ctx topic with
  | .error e => (.ok (invalidTopicMsg e), fs)
  | .ok name =>
    if !fs.fileExists name then (.ok (notFoundMsg topic), fs)
    else (readText o name fs, fs)

/-- The content-write step of `_knowledge_write` (mode already validated,
directory ensured). -/
def contentWrite (o : Oracle) (name content mode : String) (fs : FS) : Except String FS :=
  if mode == "append" && fs.fileExists name then
    match readText o name fs with
    | .error e => .error e
    | .ok existing =>
      let existing2 := if existing != "" && !pyEndsWith existing "\n" then existing ++ "\n" else existing
      writeText o name (existing2 ++ content) fs
  else writeText o name content fs

/-- Model of `_knowledge_write`. -/
def knowledgeWrite (ctx : Ctx) (o : Oracle) (topic content mode : String) (fs : FS) :
    Except String String × FS :=
  match safePath ctx topic with
  | .error e => (.ok (invalidTopicMsg e), fs)
  | .ok name =>
    if !(mode == "overwrite" || mode == "append") then (.ok (invalidModeMsg mode), fs)
    else
      let fs1 := ensureDir fs
      match contentWrite o name content mode fs1 with
      | .error e => (.error e, fs1)
      | .ok fs2 =>
        match updateIndex o fs2 with
        | .error e => (.error e, fs2)
        | .ok fs3 => (.ok (savedMsg topic mode), fs3)

/-- Model of `_knowledge_list`. -/
def knowledgeList (o : Oracle) (fs : FS) : Except String String × FS :=
  if fs.fileExists INDEX_FILE then (readText o INDEX_FILE fs, fs)
  else if fs.dirExists then
    match updateIndex o fs with
    | .error e => (.error e, fs)
    | .ok fs1 =>
      if fs1.fileExists INDEX_FILE then (readText o INDEX_FILE fs1, fs1)
      else (.ok emptyStoreMsg, fs1)
  else (.ok emptyStoreMsg, fs)

/-! ### Basic lemmas about the model -/

theorem FS.lookup_write_self (fs : FS) (n c : String) :
    (fs.write n c).lookup n = some c := by
  unfold FS.write FS.lookup
  rw [List.find?_append]
  have hfront : (fs.files.filter (fun p => p.1 != n)).find? (fun p => p.1 == n) = none := by
    rw [List.find?_eq_none]
    intro p hp
    have := List.of_mem_filter hp
    simp only [bne_iff_ne, ne_eq, decide_eq_true_eq] at this ⊢
    simpa using this
  simp [hfront, List.find?]

theorem FS.lookup_write_ne (fs : FS) (n c m : String) (h : m ≠ n) :
    (fs.write n c).lookup m = fs.lookup m := by
  unfold FS.write FS.lookup
  rw [List.find?_append]
  have hnm : (n == m) = false := by simpa using Ne.symm h
  have hlast : List.find? (fun p => p.1 == m) [(n, c)] = none := by
    simp [List.find?, hnm]
  have hfilter : (fs.files.filter (fun p => p.1 != n)).find? (fun p => p.1 == m) =
      fs.files.find? (fun p => p.1 == m) := by
    induction fs.files with
    | nil => rfl
    | cons p ps ih =>
      by_cases hp : p.1 == m
      · have hpn : (p.1 != n) = true := by
          have : p.1 = m := by simpa using hp
          simp [bne_iff_ne, this, h]
        simp [List.filter_cons, hpn, List.find?, hp]
      · by_cases hpn : p.1 != n
        · simp [List.filter_cons, hpn, List.find?, hp, ih]
        · simp [List.filter_cons, hpn, List.find?, hp, ih]
  rw [hfilter, hlast]
  cases hm : fs.files.find? (fun p => p.1 == m) <;> simp [Option.or]

@[simp] theorem FS.dirExists_write (fs : FS) (n c : String) :
    (fs.write n c).dirExists = fs.dirExists := rfl

@[simp] theorem FS.dirExists_ensureDir (fs : FS) : (ensureDir fs).dirExists = true := rfl

@[simp] theorem FS.lookup_ensureDir (fs : FS) (n : String) :
    (ensureDir fs).lookup n = fs.lookup n := rfl

/-- Inversion of a successful sanitization. -/
theorem sanitize_ok_iff (s t : String) :
    sanitizeTopic s = .ok t ↔
      (s ≠ "" ∧ t = pyStrip s ∧
        (t.data.contains '/' || t.data.contains '\\' || containsDotDot t.data) = false ∧
        validTopicMatch t.data = true ∧
        RESERVED.contains (pyLower t) = false) := by
  unfold sanitizeTopic
  by_cases h0 : s = ""
  · simp [h0]
  · have h0' : (s == "") = false := by simpa using h0
    simp only [h0', Bool.false_eq_true, if_false]
    by_cases h1 : ((pyStrip s).data.contains '/' || (pyStrip s).data.contains '\\' ||
        containsDotDot (pyStrip s).data) = true
    · simp only [h1, if_true]
      constructor
      · intro h; cases h
      · rintro ⟨-, rfl, hc, -⟩
        rw [h1] at hc; cases hc
    · have h1' : ((pyStrip s).data.contains '/' || (pyStrip s).data.contains '\\' ||
          containsDotDot (pyStrip s).data) = false := by
        simpa using h1
      simp only [h1', Bool.false_eq_true, if_false]
      by_cases h2 : validTopicMatch (pyStrip s).data = true
      · simp only [h2, Bool.not_true, Bool.false_eq_true, if_false]
        by_cases h3 : RESERVED.contains (pyLower (pyStrip s)) = true
        · simp only [h3, if_true]
          constructor
          · intro h; cases h
          · rintro ⟨-, rfl, -, -, hr⟩
            rw [h3] at hr; cases hr
        · have h3' : RESERVED.contains (pyLower (pyStrip s)) = false := by simpa using h3
          simp only [h3', Bool.false_eq_true, if_false]
          constructor
          · intro h
            cases h
            exact ⟨h0, rfl, h1', h2, h3'⟩
          · rintro ⟨-, rfl, -, -, -⟩; rfl
      · have h2' : validTopicMatch (pyStrip s).data = false := by simpa using h2
        simp only [h2', Bool.not_false, if_true]
        constructor
        · intro h; cases h
        · rintro ⟨-, rfl, -, hv, -⟩
          rw [h2'] at hv; cases hv

/-- A sanitized topic starts with an alphanumeric character (in particular
it is non-empty). -/
theorem sanitize_ok_head_alnum (s t : String) (h : sanitizeTopic s = .ok t) :
    t.data ≠ [] ∧ isAsciiAlnum (t.data.headD ' ') = true := by
  have hv := ((sanitize_ok_iff s t).1 h).2.2.2.1
  cases hd : t.data with
  | nil => rw [hd] at hv; cases hv
  | cons c rest =>
    rw [hd] at hv
    refine ⟨by simp, ?_⟩
    cases rest with
    | nil => simpa [validTopicMatch] using hv
    | cons d ds =>
      simp only [validTopicMatch, Bool.and_eq_true] at hv
      simp [hv.1.1.1]

/-- The file of a sanitized topic is never the index file. -/
theorem sanitize_name_ne_index (s t : String) (h : sanitizeTopic s = .ok t) :
    t ++ ".md" ≠ INDEX_FILE := by
  intro heq
  obtain ⟨hne, halnum⟩ := sanitize_ok_head_alnum s t h
  have hdata : t.data ++ ".md".data = INDEX_FILE.data := by
    rw [← String.data_append, heq]
  cases hd : t.data with
  | nil => exact hne hd
  | cons c rest =>
    rw [hd] at hdata
    have hc : c = '_' := by
      have : (c :: (rest ++ ".md".data)) = INDEX_FILE.data := by simpa using hdata
      have := congrArg (fun l => l.headD ' ') this
      simpa [INDEX_FILE] using this
    rw [hd, hc] at halnum
    simp [isAsciiAlnum] at halnum

/-- Under a symlink-free resolution, containment always holds. -/
theorem containmentOk_plain (k n : String) :
    containmentOk (plainResolve k n) k = true := by
  unfold containmentOk plainResolve
  have : (k ++ "/").data.isPrefixOf (k ++ "/" ++ n).data = true := by
    rw [ List.isPrefixOf_iff_prefix, String.data_append (k ++ "/") n]
    exact List.prefix_append _ _
  simp [this]

/-- Behaviour of `_safe_path` under a symlink-free directory: succeeds exactly on
sanitizer success, returning `<topic>.md`. -/
theorem safePath_plain (ctx : Ctx) (topic t : String)
    (hres : ctx.resolve = plainResolve ctx.kdirResolved)
    (h : sanitizeTopic topic = .ok t) :
    safePath ctx topic = .ok (t ++ ".md") := by
  unfold safePath
  rw [h, hres]
  simp [containmentOk_plain]

/-! ### Strip lemmas -/

theorem dropWhile_space_append (p r : List Char) (hp : ∀ c ∈ p, pyIsSpace c = true) :
    List.dropWhile pyIsSpace (p ++ r) = List.dropWhile pyIsSpace r := by
  induction p with
  | nil => rfl
  | cons a p ih =>
    have ha : pyIsSpace a = true := hp a (by simp)
    rw [List.cons_append, List.dropWhile_cons_of_pos ha]
    exact ih (fun c hc => hp c (by simp [hc]))

theorem pyStripList_space_append (p l : List Char) (hp : ∀ c ∈ p, pyIsSpace c = true) :
    pyStripList (p ++ l) = pyStripList l := by
  unfold pyStripList
  rw [dropWhile_space_append p l hp]

theorem pyStripList_append_space (l q : List Char) (hq : ∀ c ∈ q, pyIsSpace c = true) :
    pyStripList (l ++ q) = pyStripList l := by
  unfold pyStripList
  rw [List.dropWhile_append]
  by_cases hl : (List.dropWhile pyIsSpace l).isEmpty = true
  · have hq0 : List.dropWhile pyIsSpace q = [] := by
      have := dropWhile_space_append q [] hq
      simpa using this
    have hl0 : List.dropWhile pyIsSpace l = [] := by simpa using hl
    simp [hl, hq0, hl0]
  · have hl' : (List.dropWhile pyIsSpace l).isEmpty = false := by simpa using hl
    simp only [hl', Bool.false_eq_true, if_false]
    rw [List.reverse_append]
    rw [dropWhile_space_append _ _ (fun c hc => hq c (by simpa using hc))]

theorem pyStrip_pad (pre s post : String)
    (hpre : ∀ c ∈ pre.data, pyIsSpace c = true)
    (hpost : ∀ c ∈ post.data, pyIsSpace c = true) :
    pyStrip (pre ++ s ++ post) = pyStrip s := by
  unfold pyStrip
  congr 1
  rw [String.data_append, String.data_append]
  rw [pyStripList_append_space _ _ hpost, pyStripList_space_append _ _ hpre]

/-- Sanitization ignores surrounding whitespace padding. -/
theorem sanitize_pad (pre s post t : String)
    (hpre : ∀ c ∈ pre.data, pyIsSpace c = true)
    (hpost : ∀ c ∈ post.data, pyIsSpace c = true)
    (h : sanitizeTopic s = .ok t) :
    sanitizeTopic (pre ++ s ++ post) = .ok t := by
  obtain ⟨hne, hstrip, hsep, hvalid, hres⟩ := (sanitize_ok_iff s t).1 h
  rw [sanitize_ok_iff]
  have hstrip' : t = pyStrip (pre ++ s ++ post) := by
    rw [pyStrip_pad pre s post hpre hpost]; exact hstrip
  refine ⟨?_, hstrip', hsep, hvalid, hres⟩
  intro habs
  apply hne
  have : (pre ++ s ++ post).data = [] := by rw [habs]
  rw [String.data_append, String.data_append] at this
  have hs : s.data = [] := by
    rcases List.append_eq_nil.1 this with ⟨h1, -⟩
    exact (List.append_eq_nil.1 h1).2
  exact String.ext (by simpa using hs)

/-! ### The regex as a conjunction of the spec's conditions -/

theorem isTopicChar_of_alnum (c : Char) (h : isAsciiAlnum c = true) : isTopicChar c = true := by
  simp [isTopicChar, h]

theorem all_dropLast_getLast (P : Char → Bool) (l : List Char) (h : l ≠ []) :
    l.all P = (l.dropLast.all P && P ((l.getLast?).getD ' ')) := by
  induction l with
  | nil => exact absurd rfl h
  | cons a t ih =>
    cases t with
    | nil => simp
    | cons b u =>
      have ht : (b :: u) ≠ [] := by simp
      rw [List.getLast?_cons_cons]
      have hdl : (a :: b :: u).dropLast = a :: (b :: u).dropLast := rfl
      rw [hdl]
      simp only [List.all_cons, ih ht, Bool.and_assoc]

theorem validTopicMatch_eq (l : List Char) :
    validTopicMatch l =
      (!l.isEmpty && decide (l.length ≤ 100) && l.all isTopicChar &&
        isAsciiAlnum (l.headD ' ') && isAsciiAlnum ((l.getLast?).getD ' ')) := by
  cases l with
  | nil => rfl
  | cons c rest =>
    cases rest with
    | nil =>
      show isAsciiAlnum c = _
      cases h : isAsciiAlnum c
      · simp [h]
      · simp [h, isTopicChar_of_alnum c h]
    | cons d ds =>
      show (isAsciiAlnum c && (d :: ds).length + 1 ≤ 100 &&
        (d :: ds).dropLast.all isTopicChar && isAsciiAlnum (((d :: ds).getLast?).getD ' ')) = _
      rw [List.getLast?_cons_cons]
      rw [show (c :: d :: ds).all isTopicChar = (isTopicChar c && (d :: ds).all isTopicChar) from rfl]
      rw [all_dropLast_getLast isTopicChar (d :: ds) (by simp)]
      have hlen : ((d :: ds).length + 1 ≤ 100 : Bool) = decide ((c :: d :: ds).length ≤ 100) := by
        simp [List.length]
      rw [hlen]
      cases hA : isAsciiAlnum c <;>
        cases hT : isAsciiAlnum (((d :: ds).getLast?).getD ' ')
      · simp [hA, hT]
      · simp [hA, hT]
      · simp [hA, hT]
      · simp [hA, hT, List.all_cons, isTopicChar_of_alnum c hA,
          isTopicChar_of_alnum _ hT, Bool.and_comm, Bool.and_assoc, Bool.and_left_comm]

/-! ### Claim C5: spec-side rejection condition -/

/-- Whether the sanitizer accepts (`_sanitize_topic` returns instead of
raising). -/
def sanitizeAccepts (s : String) : Bool :=
  match sanitizeTopic s with
  | .ok _ => true
  | .error _ => false

/-- The rejection condition exactly as claim C5 words it, over the trimmed
string: empty, longer than 100 characters, a character outside ASCII
letters/digits/underscore/hyphen/dot, a path separator or `..`, a
non-alphanumeric first or last character, or case-insensitively a reserved
word. -/
def specRejects (s : String) : Bool :=
  let t := pyStrip s
  t == "" || decide (100 < t.length) ||
  t.data.any (fun c => !isTopicChar c) ||
  t.data.contains '/' || t.data.contains '\\' || containsDotDot t.data ||
  !isAsciiAlnum (t.data.headD ' ') || !isAsciiAlnum ((t.data.getLast?).getD ' ') ||
  RESERVED.contains (pyLower t)

theorem beq_empty_eq_isEmpty (t : String) : (t == "") = t.data.isEmpty := by
  by_cases h : t.data = []
  · have ht : t = "" := String.ext (by simpa using h)
    simp [ht, h]
  · have ht : t ≠ "" := by
      intro he; exact h (by rw [he])
    cases hd : t.data with
    | nil => exact absurd hd h
    | cons a u => simp [beq_eq_false_iff_ne, ht, hd]

theorem bool_norm :
    ∀ (S B D E L M H T R : Bool),
      (!(S || B || D) && (!E && !L && M && H && T) && !R) =
        !(E || L || !M || S || B || D || !H || !T || R) := by
  decide

theorem any_not_eq_not_all (P : Char → Bool) (l : List Char) :
    l.any (fun c => !P c) = !l.all P := by
  induction l with
  | nil => rfl
  | cons a t ih => simp [List.any_cons, List.all_cons, ih, Bool.not_and]

/-- The sanitizer's verdict as the conjunction of its three checks on the
trimmed string. -/
theorem sanitizeAccepts_eq (s : String) (h0 : s ≠ "") :
    sanitizeAccepts s =
      (!((pyStrip s).data.contains '/' || (pyStrip s).data.contains '\\' ||
          containsDotDot (pyStrip s).data) &&
        validTopicMatch (pyStrip s).data &&
        !RESERVED.contains (pyLower (pyStrip s))) := by
  have hdef : sanitizeTopic s =
      (if s == "" then Except.error "Topic must be a non-empty string"
       else if (pyStrip s).data.contains '/' || (pyStrip s).data.contains '\\' ||
           containsDotDot (pyStrip s).data then
         Except.error ("Invalid characters in topic: " ++ pyStrip s)
       else if !validTopicMatch (pyStrip s).data then
         Except.error ("Invalid topic name: " ++ pyStrip s ++
           ". Use alphanumeric, underscore, hyphen, dot.")
       else if RESERVED.contains (pyLower (pyStrip s)) then
         Except.error ("Reserved topic name: " ++ pyStrip s)
       else Except.ok (pyStrip s)) := rfl
  have h0' : ¬ ((s == "") = true) := by simp [h0]
  unfold sanitizeAccepts
  rw [hdef, if_neg h0']
  by_cases h1 : ((pyStrip s).data.contains '/' || (pyStrip s).data.contains '\\' ||
      containsDotDot (pyStrip s).data) = true
  · rw [if_pos h1, h1]
    rfl
  · rw [if_neg h1]
    have h1' : ((pyStrip s).data.contains '/' || (pyStrip s).data.contains '\\' ||
        containsDotDot (pyStrip s).data) = false := eq_false_of_ne_true h1
    rw [h1']
    by_cases h2 : validTopicMatch (pyStrip s).data = true
    · have h2n : ¬ ((!validTopicMatch (pyStrip s).data) = true) := by rw [h2]; simp
      rw [if_neg h2n, h2]
      by_cases h3 : RESERVED.contains (pyLower (pyStrip s)) = true
      · rw [if_pos h3, h3]
        rfl
      · rw [if_neg h3, eq_false_of_ne_true h3]
        rfl
    · have h2' : validTopicMatch (pyStrip s).data = false := eq_false_of_ne_true h2
      have h2t : (!validTopicMatch (pyStrip s).data) = true := by rw [h2']; rfl
      rw [if_pos h2t, h2']
      rfl

/-- C5: the Sanitizer rejects an input exactly when its trimmed form is
empty, longer than 100 characters, contains a character outside ASCII
letters/digits/underscore/hyphen/dot, contains a path separator or `..`,
has a non-alphanumeric first or last character, or case-insensitively
equals a reserved word; otherwise it accepts. -/
theorem claim_C5_sanitizer (s : String) : sanitizeAccepts s = !specRejects s := by
  have hspec : specRejects s =
      ((pyStrip s == "") || decide (100 < (pyStrip s).length) ||
       (pyStrip s).data.any (fun c => !isTopicChar c) ||
       (pyStrip s).data.contains '/' || (pyStrip s).data.contains '\\' ||
       containsDotDot (pyStrip s).data ||
       !isAsciiAlnum ((pyStrip s).data.headD ' ') ||
       !isAsciiAlnum (((pyStrip s).data.getLast?).getD ' ') ||
       RESERVED.contains (pyLower (pyStrip s))) := rfl
  by_cases h0 : s = ""
  · subst h0; rfl
  · rw [sanitizeAccepts_eq s h0, hspec]
    rw [validTopicMatch_eq]
    rw [beq_empty_eq_isEmpty (pyStrip s)]
    rw [any_not_eq_not_all isTopicChar (pyStrip s).data]
    have hL : (decide ((pyStrip s).data.length ≤ 100)) = !decide (100 < (pyStrip s).length) := by
      have hlen : (pyStrip s).length = (pyStrip s).data.length := rfl
      rw [hlen]
      by_cases h : (pyStrip s).data.length ≤ 100
      · rw [decide_eq_true h, decide_eq_false (Nat.not_lt.2 h)]
        rfl
      · rw [decide_eq_false h, decide_eq_true (Nat.not_le.1 h)]
        rfl
    rw [hL]
    exact bool_norm _ _ _ _ _ _ _ _ _

/-! ### Containment characterization and claim C1 -/

theorem containmentOk_iff (r k : String) :
    containmentOk r k = true ↔ (isDescendantOf r k ∨ r = k) := by
  unfold containmentOk isDescendantOf
  rw [Bool.or_eq_true, beq_iff_eq, List.isPrefixOf_iff_prefix ]
  constructor
  · rintro (h | h)
    · obtain ⟨l, hl⟩ := h
      left
      refine ⟨⟨l⟩, ?_⟩
      apply String.ext
      rw [String.data_append]
      exact hl.symm
    · right; exact h
  · rintro (⟨rest, rfl⟩ | rfl)
    · left
      rw [String.data_append]
      exact List.prefix_append _ _
    · right; rfl

/-- C1: a sanitized topic whose candidate file resolves (canonically)
neither to the base directory nor to a descendant of it is rejected by
`_safe_path` with a path-escape error; conversely any topic `_safe_path`
accepts resolves inside the base directory, so no read or write file
operation (all of which go through `_safe_path`) can touch a file outside
it. -/
theorem claim_C1_path_containment (ctx : Ctx) (topic t : String)
    (hok : sanitizeTopic topic = .ok t) :
    ((¬ isDescendantOf (ctx.resolve (t ++ ".md")) ctx.kdirResolved ∧
      ctx.resolve (t ++ ".md") ≠ ctx.kdirResolved) →
        safePath ctx topic = .error ("Path escape detected: " ++ t)) ∧
    (∀ name, safePath ctx topic = .ok name →
      isDescendantOf (ctx.resolve name) ctx.kdirResolved ∨
        ctx.resolve name = ctx.kdirResolved) := by
  have hdef : safePath ctx topic =
      (if containmentOk (ctx.resolve (t ++ ".md")) ctx.kdirResolved then .ok (t ++ ".md")
       else .error ("Path escape detected: " ++ t)) := by
    unfold safePath
    rw [hok]
  constructor
  · rintro ⟨hnd, hne⟩
    have hcf : ¬ (containmentOk (ctx.resolve (t ++ ".md")) ctx.kdirResolved = true) := by
      intro hc
      rcases (containmentOk_iff _ _).1 hc with h | h
      · exact hnd h
      · exact hne h
    rw [hdef, if_neg hcf]
  · intro name h
    rw [hdef] at h
    by_cases hc : containmentOk (ctx.resolve (t ++ ".md")) ctx.kdirResolved = true
    · rw [if_pos hc] at h
      have hname : name = t ++ ".md" := by
        injection h with h'
        exact h'.symm
      subst hname
      exact (containmentOk_iff _ _).1 hc
    · rw [if_neg hc] at h
      exact Except.noConfusion h

/-- A base directory whose resolution sends every candidate to a symbolic
link target outside of it. -/
def evilCtx : Ctx := ⟨"/drive/memory/knowledge", fun _ => "/etc/passwd"⟩

theorem claim_C1_witness :
    safePath evilCtx "evil" = .error ("Path escape detected: " ++ "evil") := by
  refine (claim_C1_path_containment evilCtx "evil" "evil" rfl).1 ⟨?_, ?_⟩
  · show ¬ isDescendantOf "/etc/passwd" "/drive/memory/knowledge"
    rintro ⟨rest, h⟩
    have hlen := congrArg String.length h
    rw [String.length_append, String.length_append] at hlen
    have h11 : ("/etc/passwd" : String).length = 11 := rfl
    have h23 : ("/drive/memory/knowledge" : String).length = 23 := rfl
    have h1 : ("/" : String).length = 1 := rfl
    rw [h11, h23, h1] at hlen
    omega
  · show ("/etc/passwd" : String) ≠ "/drive/memory/knowledge"
    decide

/-! ### The write path under a healthy filesystem -/

theorem knowledgeWrite_ok_name (ctx : Ctx) (o : Oracle) (topic content mode name : String)
    (fs : FS) (hsp : safePath ctx topic = .ok name)
    (hmode : (mode == "overwrite" || mode == "append") = true) :
    knowledgeWrite ctx o topic content mode fs =
      (match contentWrite o name content mode (ensureDir fs) with
       | .error e => (.error e, ensureDir fs)
       | .ok fs2 =>
         match updateIndex o fs2 with
         | .error e => (.error e, fs2)
         | .ok fs3 => (.ok (savedMsg topic mode), fs3)) := by
  unfold knowledgeWrite
  rw [hsp, hmode]
  rfl

/-- The store state after a successful overwrite on a healthy filesystem:
the content file is written, then the index file. -/
def overwriteResultFS (t content : String) (fs : FS) : FS :=
  ((ensureDir fs).write (t ++ ".md") content).write INDEX_FILE
    (indexContent noFail ((ensureDir fs).write (t ++ ".md") content))

theorem knowledgeWrite_overwrite_noFail (ctx : Ctx) (topic t content : String) (fs : FS)
    (hres : ctx.resolve = plainResolve ctx.kdirResolved)
    (hok : sanitizeTopic topic = .ok t) :
    knowledgeWrite ctx noFail topic content "overwrite" fs =
      (.ok (savedMsg topic "overwrite"), overwriteResultFS t content fs) := by
  rw [knowledgeWrite_ok_name ctx noFail topic content "overwrite" (t ++ ".md") fs
    (safePath_plain ctx topic t hres hok) rfl]
  rfl

theorem knowledgeRead_found (ctx : Ctx) (topic t content : String) (fs : FS)
    (hres : ctx.resolve = plainResolve ctx.kdirResolved)
    (hok : sanitizeTopic topic = .ok t)
    (hdir : fs.dirExists = true)
    (hl : fs.lookup (t ++ ".md") = some content) :
    knowledgeRead ctx noFail topic fs = (.ok content, fs) := by
  unfold knowledgeRead
  rw [safePath_plain ctx topic t hres hok]
  have hfe : fs.fileExists (t ++ ".md") = true := by
    unfold FS.fileExists
    rw [hdir, hl]
    rfl
  have hrt : readText noFail (t ++ ".md") fs = .ok content := by
    unfold readText
    rw [hl]
    rfl
  show (if !fs.fileExists (t ++ ".md") then ((.ok (notFoundMsg topic) : Except String String), fs)
    else (readText noFail (t ++ ".md") fs, fs)) = (.ok content, fs)
  rw [hfe, hrt]
  rfl

/-- Writing (under any sanitizer-accepted raw spelling of the same topic)
then reading the topic returns the written content. -/
theorem roundtrip_core (ctx : Ctx) (raw topic t content : String) (fs : FS)
    (hres : ctx.resolve = plainResolve ctx.kdirResolved)
    (hokRaw : sanitizeTopic raw = .ok t)
    (hok : sanitizeTopic topic = .ok t) :
    (knowledgeRead ctx noFail topic
      (knowledgeWrite ctx noFail raw content "overwrite" fs).2).1 = .ok content := by
  rw [knowledgeWrite_overwrite_noFail ctx raw t content fs hres hokRaw]
  show (knowledgeRead ctx noFail topic (overwriteResultFS t content fs)).1 = .ok content
  have hl : (overwriteResultFS t content fs).lookup (t ++ ".md") = some content := by
    unfold overwriteResultFS
    rw [FS.lookup_write_ne _ _ _ _ (sanitize_name_ne_index topic t hok)]
    exact FS.lookup_write_self _ _ _
  rw [knowledgeRead_found ctx topic t content (overwriteResultFS t content fs) hres hok rfl hl]

/-- C3: for every valid topic and content, `write(t, C, "overwrite")`
followed by `read(t)` returns exactly `C`, whatever the prior state of the
store (overwrite fully replaces any previous content). -/
theorem claim_C3_roundtrip (ctx : Ctx) (topic t content : String) (fs : FS)
    (hres : ctx.resolve = plainResolve ctx.kdirResolved)
    (hok : sanitizeTopic topic = .ok t) :
    (knowledgeRead ctx noFail topic
      (knowledgeWrite ctx noFail topic content "overwrite" fs).2).1 = .ok content :=
  roundtrip_core ctx topic topic t content fs hres hok hok

/-- The context of a store mounted at `/drive` with no symbolic links. -/
def ctxK : Ctx := ⟨"/drive/memory/knowledge", plainResolve "/drive/memory/knowledge"⟩

def fsEmpty : FS := ⟨false, []⟩

theorem claim_C3_witness :
    (knowledgeRead ctxK noFail "notes"
      (knowledgeWrite ctxK noFail "notes" "hello" "overwrite"
        ⟨true, [("notes.md", "old")]⟩).2).1 = .ok "hello" :=
  claim_C3_roundtrip ctxK "notes" "notes" "hello" ⟨true, [("notes.md", "old")]⟩ rfl rfl

/-! ### Claim C4: append semantics -/

theorem str_append_empty (s : String) : s ++ "" = s := by
  apply String.ext
  rw [String.data_append]
  exact List.append_nil s.data

/-- The content stored by an append onto `existing` (the `existing2 ++
content` of `_knowledge_write`). -/
def appendStored (existing content : String) : String :=
  (if existing != "" && !pyEndsWith existing "\n" then existing ++ "\n" else existing) ++ content

/-- The stored value, reshaped as claim C4 words it: the existing content,
then a separating newline exactly when the existing content is non-empty
and does not already end with one, then the new content. -/
theorem appendStored_eq (existing content : String) :
    appendStored existing content =
      existing ++ (if existing ≠ "" ∧ ¬ pyEndsWith existing "\n" = true then "\n" else "") ++
        content := by
  unfold appendStored
  by_cases hc : (existing != "" && !pyEndsWith existing "\n") = true
  · obtain ⟨hb1, hb2⟩ := Bool.and_eq_true_iff.1 hc
    have h1 : existing ≠ "" := by simpa using hb1
    have h2 : ¬ pyEndsWith existing "\n" = true := by simpa using hb2
    rw [if_pos hc, if_pos ⟨h1, h2⟩]
  · have hcP : ¬ (existing ≠ "" ∧ ¬ pyEndsWith existing "\n" = true) := by
      rintro ⟨h1, h2⟩
      apply hc
      have hb1 : (existing != "") = true := by simpa using h1
      have hb2 : pyEndsWith existing "\n" = false := eq_false_of_ne_true h2
      rw [hb1, hb2]
      rfl
    rw [if_neg hc, if_neg hcP, str_append_empty]

theorem knowledgeWrite_append_exists (ctx : Ctx) (topic t content existing : String) (fs : FS)
    (hres : ctx.resolve = plainResolve ctx.kdirResolved)
    (hok : sanitizeTopic topic = .ok t)
    (hl : fs.lookup (t ++ ".md") = some existing) :
    knowledgeWrite ctx noFail topic content "append" fs =
      (.ok (savedMsg topic "append"),
        overwriteResultFS t (appendStored existing content) fs) := by
  rw [knowledgeWrite_ok_name ctx noFail topic content "append" (t ++ ".md") fs
    (safePath_plain ctx topic t hres hok) rfl]
  have hl' : (ensureDir fs).lookup (t ++ ".md") = some existing := hl
  have hrt : readText noFail (t ++ ".md") (ensureDir fs) = .ok existing := by
    unfold readText
    rw [hl']
    rfl
  have hcw : contentWrite noFail (t ++ ".md") content "append" (ensureDir fs) =
      .ok ((ensureDir fs).write (t ++ ".md") (appendStored existing content)) := by
    unfold contentWrite
    rw [show (("append" == "append") && (ensureDir fs).fileExists (t ++ ".md"))
        = ((fs.lookup (t ++ ".md")).isSome) from rfl, hl]
    rw [if_pos (show (some existing).isSome = true from rfl), hrt]
    rfl
  rw [hcw]
  rfl

theorem knowledgeWrite_append_missing (ctx : Ctx) (topic t content : String) (fs : FS)
    (hres : ctx.resolve = plainResolve ctx.kdirResolved)
    (hok : sanitizeTopic topic = .ok t)
    (hl : fs.lookup (t ++ ".md") = none) :
    knowledgeWrite ctx noFail topic content "append" fs =
      (.ok (savedMsg topic "append"), overwriteResultFS t content fs) := by
  rw [knowledgeWrite_ok_name ctx noFail topic content "append" (t ++ ".md") fs
    (safePath_plain ctx topic t hres hok) rfl]
  have hcw : contentWrite noFail (t ++ ".md") content "append" (ensureDir fs) =
      .ok ((ensureDir fs).write (t ++ ".md") content) := by
    unfold contentWrite
    rw [show (("append" == "append") && (ensureDir fs).fileExists (t ++ ".md"))
        = ((fs.lookup (t ++ ".md")).isSome) from rfl, hl]
    rfl
  rw [hcw]
  rfl

/-- C4: append concatenates onto an existing entry, inserting a single
separating newline exactly when the existing content is non-empty and
does not already end with one; appending to a missing entry leaves the
same store state as an overwrite. -/
theorem claim_C4_append (ctx : Ctx) (topic t content : String) (fs : FS)
    (hres : ctx.resolve = plainResolve ctx.kdirResolved)
    (hok : sanitizeTopic topic = .ok t) :
    (∀ existing, fs.lookup (t ++ ".md") = some existing →
      (knowledgeWrite ctx noFail topic content "append" fs).2.lookup (t ++ ".md") =
        some (existing ++
          (if existing ≠ "" ∧ ¬ pyEndsWith existing "\n" = true then "\n" else "") ++ content)) ∧
    (fs.lookup (t ++ ".md") = none →
      (knowledgeWrite ctx noFail topic content "append" fs).2 =
        (knowledgeWrite ctx noFail topic content "overwrite" fs).2) := by
  constructor
  · intro existing hl
    rw [knowledgeWrite_append_exists ctx topic t content existing fs hres hok hl]
    show (overwriteResultFS t (appendStored existing content) fs).lookup (t ++ ".md") = _
    unfold overwriteResultFS
    rw [FS.lookup_write_ne _ _ _ _ (sanitize_name_ne_index topic t hok),
      FS.lookup_write_self, appendStored_eq]
  · intro hl
    rw [knowledgeWrite_append_missing ctx topic t content fs hres hok hl,
      knowledgeWrite_overwrite_noFail ctx topic t content fs hres hok]

theorem claim_C4_witness :
    (knowledgeWrite ctxK noFail "notes" "b" "append"
      ⟨true, [("notes.md", "a")]⟩).2.lookup ("notes" ++ ".md") = some "a\nb" := by
  rw [(claim_C4_append ctxK "notes" "notes" "b" ⟨true, [("notes.md", "a")]⟩ rfl rfl).1 "a" rfl]
  decide

/-! ### Claim C8: invalid mode -/

theorem knowledgeWrite_bad_mode (ctx : Ctx) (o : Oracle) (topic content mode name : String)
    (fs : FS) (hsp : safePath ctx topic = .ok name)
    (hmode : (mode == "overwrite" || mode == "append") = false) :
    knowledgeWrite ctx o topic content mode fs = (.ok (invalidModeMsg mode), fs) := by
  unfold knowledgeWrite
  rw [hsp, hmode]
  rfl

/-- C8: a write with a mode other than `overwrite` or `append` on a valid
topic returns the invalid-mode message and leaves the store untouched, so
a subsequent read is unaffected. -/
theorem claim_C8_invalid_mode (ctx : Ctx) (o : Oracle) (topic t content mode : String) (fs : FS)
    (hres : ctx.resolve = plainResolve ctx.kdirResolved)
    (hok : sanitizeTopic topic = .ok t)
    (h1 : mode ≠ "overwrite") (h2 : mode ≠ "append") :
    knowledgeWrite ctx o topic content mode fs = (.ok (invalidModeMsg mode), fs) ∧
    knowledgeRead ctx o topic (knowledgeWrite ctx o topic content mode fs).2 =
      knowledgeRead ctx o topic fs := by
  have hm1 : (mode == "overwrite") = false := by simpa using h1
  have hm2 : (mode == "append") = false := by simpa using h2
  have heq : knowledgeWrite ctx o topic content mode fs = (.ok (invalidModeMsg mode), fs) := by
    apply knowledgeWrite_bad_mode ctx o topic content mode (t ++ ".md") fs
      (safePath_plain ctx topic t hres hok)
    rw [hm1, hm2]
    rfl
  exact ⟨heq, by rw [heq]⟩

theorem claim_C8_witness :
    knowledgeWrite ctxK noFail "notes" "c" "bogus-mode" ⟨true, [("notes.md", "a")]⟩ =
      (.ok (invalidModeMsg "bogus-mode"), ⟨true, [("notes.md", "a")]⟩) :=
  (claim_C8_invalid_mode ctxK noFail "notes" "notes" "c" "bogus-mode"
    ⟨true, [("notes.md", "a")]⟩ rfl rfl (by decide) (by decide)).1

/-! ### Claim C9: read never mutates -/

/-- C9: `read` returns the state unchanged in every case, and the
invalid-topic and not-found cases return messages (an `Except.ok` result,
never a raised exception). -/
theorem claim_C9_read_pure (ctx : Ctx) (o : Oracle) (topic : String) (fs : FS) :
    (knowledgeRead ctx o topic fs).2 = fs ∧
    (∀ e, safePath ctx topic = .error e →
      (knowledgeRead ctx o topic fs).1 = .ok (invalidTopicMsg e)) ∧
    (∀ name, safePath ctx topic = .ok name → fs.fileExists name = false →
      (knowledgeRead ctx o topic fs).1 = .ok (notFoundMsg topic)) := by
  refine ⟨?_, ?_, ?_⟩
  · unfold knowledgeRead
    cases h : safePath ctx topic with
    | error e => rfl
    | ok name =>
      show (if !fs.fileExists name then ((.ok (notFoundMsg topic) : Except String String), fs)
        else (readText o name fs, fs)).2 = fs
      by_cases hf : fs.fileExists name = true
      · rw [hf]
        rfl
      · rw [eq_false_of_ne_true hf]
        rfl
  · intro e h
    unfold knowledgeRead
    rw [h]
  · intro name h hfe
    unfold knowledgeRead
    rw [h]
    show (if !fs.fileExists name then ((.ok (notFoundMsg topic) : Except String String), fs)
      else (readText o name fs, fs)).1 = .ok (notFoundMsg topic)
    rw [hfe]
    rfl

theorem claim_C9_witness :
    (knowledgeRead ctxK noFail ".." fsEmpty).1 =
      .ok (invalidTopicMsg "Invalid characters in topic: ..") ∧
    (knowledgeRead ctxK noFail "missing" fsEmpty).1 = .ok (notFoundMsg "missing") :=
  ⟨(claim_C9_read_pure ctxK noFail ".." fsEmpty).2.1 _ rfl,
   (claim_C9_read_pure ctxK noFail "missing" fsEmpty).2.2 ("missing" ++ ".md") rfl rfl⟩

/-! ### Claim C6: the index rebuild, against the claim's own wording -/

/-- Modelled from claim C6's wording: an entry's summary is its first
non-blank line, with leading `#` heading markers and surrounding
whitespace stripped, truncated to 120 characters (empty if no such
line). -/
def specSummary (text : String) : String :=
  let lines := splitLines (pyStrip text)
  pyTake (((lines.find? (fun line => !(cleanLine line == ""))).map cleanLine).getD "") 120

/-- Modelled from claim C6's wording: the line an entry contributes —
its summary on success, the fixed `(unreadable)` marker when its content
cannot be read. -/
def specEntryLine (o : Oracle) (fs : FS) (name : String) : String :=
  match readText o name fs with
  | .ok text => "- **" ++ stem name ++ "**: " ++ specSummary text
  | .error _ => "- **" ++ stem name ++ "**: (unreadable)"

/-- Modelled from claim C6's wording: the fixed header, then one line per
entry file (the index file itself excluded) sorted by filename, or the
fixed `(empty)` body when there are no entries. -/
def specIndexContent (o : Oracle) (fs : FS) : String :=
  let lines := ((sortStrings (mdNames fs)).filter (fun n => n != INDEX_FILE)).map
    (specEntryLine o fs)
  "# Knowledge Base Index\n\n" ++
    (if lines.isEmpty then "(empty)\n" else joinWith "\n" lines ++ "\n")

theorem firstSummaryLine_eq (lines : List String) :
    firstSummaryLine lines =
      pyTake (((lines.find? (fun line => !(cleanLine line == ""))).map cleanLine).getD "")
        120 := by
  induction lines with
  | nil => rfl
  | cons line rest ih =>
    by_cases h : (cleanLine line == "") = true
    · show (if cleanLine line == "" then firstSummaryLine rest
        else pyTake (cleanLine line) 120) = _
      rw [if_pos h, List.find?_cons_of_neg _ (by rw [h]; simp)]
      exact ih
    · show (if cleanLine line == "" then firstSummaryLine rest
        else pyTake (cleanLine line) 120) = _
      rw [if_neg h, List.find?_cons_of_pos _ (by rw [eq_false_of_ne_true h]; rfl)]
      rfl

theorem entrySummary_eq_spec (text : String) : entrySummary text = specSummary text := by
  unfold entrySummary specSummary
  exact firstSummaryLine_eq _

theorem indexLine_eq_spec (o : Oracle) (fs : FS) (name : String) :
    indexLine o fs name = specEntryLine o fs name := by
  unfold indexLine specEntryLine
  cases h : readText o name fs with
  | ok text =>
    show "- **" ++ stem name ++ "**: " ++ entrySummary text =
      "- **" ++ stem name ++ "**: " ++ specSummary text
    rw [entrySummary_eq_spec]
  | error e => rfl

theorem indexContent_eq_spec (o : Oracle) (fs : FS) :
    indexContent o fs = specIndexContent o fs := by
  unfold indexContent specIndexContent indexEntries
  have hf : indexLine o fs = specEntryLine o fs := funext (indexLine_eq_spec o fs)
  rw [hf]

/-- C6: on an existing base directory (and a writable index file), the
rebuild writes exactly the index claim C6 describes: fixed header, one
line per sorted entry file (index excluded), each line carrying the
claim's summary or the `(unreadable)` marker — an unreadable entry does
not abort the rebuild — and the fixed `(empty)` body when there are no
entries. -/
theorem claim_C6_index_rebuild (o : Oracle) (fs : FS)
    (hdir : fs.dirExists = true) (hw : o.writeFails INDEX_FILE = false) :
    updateIndex o fs = .ok (fs.write INDEX_FILE (specIndexContent o fs)) := by
  unfold updateIndex
  rw [hdir]
  show writeText o INDEX_FILE (indexContent o fs) fs = _
  unfold writeText
  rw [hw, indexContent_eq_spec]
  rfl

/-- A filesystem on which reading `b.md` raises `IOError`. -/
def brokenB : Oracle := ⟨fun n => n == "b.md", fun _ => false⟩

theorem claim_C6_witness :
    updateIndex brokenB ⟨true, [("b.md", "x"), ("a.md", "# T\nbody")]⟩ =
      .ok ⟨true, [("b.md", "x"), ("a.md", "# T\nbody"),
        ("_index.md", "# Knowledge Base Index\n\n- **a**: T\n- **b**: (unreadable)\n")]⟩ := by
  rw [claim_C6_index_rebuild brokenB ⟨true, [("b.md", "x"), ("a.md", "# T\nbody")]⟩ rfl rfl]
  rfl

/-! ### Claim C7: `list` -/

/-- C7: `list` returns an existing index verbatim without rebuilding;
with no index but an existing base directory it performs exactly one
rebuild and returns the resulting index; with no base directory it
returns the fixed empty-store message leaving the state untouched. -/
theorem claim_C7_list (fs : FS) :
    (∀ c, fs.dirExists = true → fs.lookup INDEX_FILE = some c →
      knowledgeList noFail fs = (.ok c, fs)) ∧
    (fs.dirExists = true → fs.lookup INDEX_FILE = none →
      knowledgeList noFail fs =
        (.ok (indexContent noFail fs), fs.write INDEX_FILE (indexContent noFail fs))) ∧
    (fs.dirExists = false → knowledgeList noFail fs = (.ok emptyStoreMsg, fs)) := by
  refine ⟨?_, ?_, ?_⟩
  · intro c hdir hl
    unfold knowledgeList
    have hfe : fs.fileExists INDEX_FILE = true := by
      unfold FS.fileExists
      rw [hdir, hl]
      rfl
    have hrt : readText noFail INDEX_FILE fs = .ok c := by
      unfold readText
      rw [hl]
      rfl
    rw [if_pos hfe, hrt]
  · intro hdir hl
    unfold knowledgeList
    have hfe : fs.fileExists INDEX_FILE = false := by
      unfold FS.fileExists
      rw [hdir, hl]
      rfl
    rw [if_neg (by simp [hfe]), if_pos hdir]
    have hupd : updateIndex noFail fs = .ok (fs.write INDEX_FILE (indexContent noFail fs)) := by
      unfold updateIndex writeText
      rw [hdir]
      rfl
    rw [hupd]
    show (if (fs.write INDEX_FILE (indexContent noFail fs)).fileExists INDEX_FILE then
        (readText noFail INDEX_FILE (fs.write INDEX_FILE (indexContent noFail fs)),
          fs.write INDEX_FILE (indexContent noFail fs))
      else ((.ok emptyStoreMsg : Except String String),
          fs.write INDEX_FILE (indexContent noFail fs))) = _
    have hfe2 : (fs.write INDEX_FILE (indexContent noFail fs)).fileExists INDEX_FILE = true := by
      unfold FS.fileExists
      rw [FS.dirExists_write, hdir, FS.lookup_write_self]
      rfl
    have hrt : readText noFail INDEX_FILE (fs.write INDEX_FILE (indexContent noFail fs)) =
        .ok (indexContent noFail fs) := by
      unfold readText
      rw [FS.lookup_write_self]
      rfl
    rw [if_pos hfe2, hrt]
  · intro hdir
    unfold knowledgeList
    have hfe : fs.fileExists INDEX_FILE = false := by
      unfold FS.fileExists
      rw [hdir]
      rfl
    rw [if_neg (by simp [hfe]), if_neg (by simp [hdir])]

theorem claim_C7_witness :
    knowledgeList noFail ⟨true, [("a.md", "hi")]⟩ =
      (.ok "# Knowledge Base Index\n\n- **a**: hi\n",
        ⟨true, [("a.md", "hi"),
          ("_index.md", "# Knowledge Base Index\n\n- **a**: hi\n")]⟩) ∧
    knowledgeList noFail fsEmpty = (.ok emptyStoreMsg, fsEmpty) := by
  constructor
  · rw [(claim_C7_list ⟨true, [("a.md", "hi")]⟩).2.1 rfl rfl]
    rfl
  · exact (claim_C7_list fsEmpty).2.2 rfl

/-! ### Claim C10: whitespace padding -/

/-- C10: writing under a whitespace-padded spelling of a valid topic
stores under the trimmed name — the padded write acknowledges with the
caller's original untrimmed string, and a read of the trimmed topic
returns the content. -/
theorem claim_C10_padding (ctx : Ctx) (pre post topic t content : String) (fs : FS)
    (hres : ctx.resolve = plainResolve ctx.kdirResolved)
    (hpre : ∀ c ∈ pre.data, pyIsSpace c = true)
    (hpost : ∀ c ∈ post.data, pyIsSpace c = true)
    (hok : sanitizeTopic topic = .ok t) :
    (knowledgeWrite ctx noFail (pre ++ topic ++ post) content "overwrite" fs).1 =
      .ok (savedMsg (pre ++ topic ++ post) "overwrite") ∧
    (knowledgeRead ctx noFail topic
      (knowledgeWrite ctx noFail (pre ++ topic ++ post) content "overwrite" fs).2).1 =
      .ok content := by
  have hokRaw : sanitizeTopic (pre ++ topic ++ post) = .ok t :=
    sanitize_pad pre topic post t hpre hpost hok
  constructor
  · rw [knowledgeWrite_overwrite_noFail ctx (pre ++ topic ++ post) t content fs hres hokRaw]
  · exact roundtrip_core ctx (pre ++ topic ++ post) topic t content fs hres hokRaw hok

theorem claim_C10_witness :
    (knowledgeRead ctxK noFail "notes"
      (knowledgeWrite ctxK noFail (" " ++ "notes" ++ "  ") "v" "overwrite" fsEmpty).2).1 =
      .ok "v" :=
  (claim_C10_padding ctxK " " "  " "notes" "notes" "v" fsEmpty rfl
    (by decide) (by decide) rfl).2

/-! ### Claim C2: a failing post-write index rebuild -/

/-- Writing the index file raises `IOError`; everything else is healthy. -/
def ioBrokenIndex : Oracle := ⟨fun _ => false, fun n => n == INDEX_FILE⟩

/-- Writing the content file `t.md` raises `IOError`; everything else is
healthy. -/
def ioBrokenContent : Oracle := ⟨fun _ => false, fun n => n == "t.md"⟩

/-- C2 (refuted by the code): when the content write of
`write("t","c","overwrite")` succeeds but the index rebuild's write
raises, `_knowledge_write` propagates the raw `IOError` — the very value
a failing content write produces — instead of any result telling the
caller the content was saved; the content is nonetheless durable in the
store. -/
theorem claim_C2_code_behavior :
    (knowledgeWrite ctxK ioBrokenIndex "t" "c" "overwrite" fsEmpty).1 = .error "IOError" ∧
    ((knowledgeWrite ctxK ioBrokenIndex "t" "c" "overwrite" fsEmpty).2).lookup "t.md" =
      some "c" ∧
    (knowledgeWrite ctxK ioBrokenContent "t" "c" "overwrite" fsEmpty).1 = .error "IOError" :=
  ⟨rfl, rfl, rfl⟩

end Ouroboros
